import Mathlib

/-!
Shallow embedding of the tv-bot repository (src/main.py and src/bot.py).

Conventions of the embedding:
* Python floats are modelled as rationals (`ℚ`); timestamps are rationals
  counting seconds, so `timedelta(hours=6)` is `21600` and
  `timedelta(days=7)` is `604800`.
* The SQLite database of `main.py` is a `DBState` record.  The `balance`
  table is a list of `(time, balance)` samples kept most-recent-first, so
  `SELECT balance FROM balance ORDER BY time DESC LIMIT 1` is the head
  (the source always inserts with a fresh `utcnow()` timestamp).
* The four `engine_state` rows (`engine_status`, `peak_balance`,
  `daily_date`, `daily_pnl`) are fields of `DBState`; the source stores
  them as strings and round-trips through `str`/`float`, which is the
  identity on the values involved.
* `datetime.utcnow()` and its `.hour` / `.weekday()` projections are passed
  in explicitly as a `Clock`.
* Network calls (`requests.get` in `get_price`) are external: callers
  receive a `prices : String → Option ℚ` snapshot, `none` standing for the
  `None` that `get_price` returns on any exception/timeout.
* Python code that would raise (tuple-unpacking `fetchone()` when a
  `strategy_state` row is missing, `KeyError` on a missing weights key in
  `bot.py`) is modelled with `Option`: `none` is an uncaught exception.
-/

namespace TvBot

/-- Python's `round(x, 2)`: round to two decimals, ties to even
(banker's rounding), modelled exactly on rationals. -/
def round2 (x : ℚ) : ℚ :=
  let y := x * 100
  let f : ℤ := ⌊y⌋
  let r : ℚ := y - f
  let n : ℤ :=
    if r < 1/2 then f
    else if 1/2 < r then f + 1
    else if f % 2 = 0 then f else f + 1
  (n : ℚ) / 100

-- Configuration constants of src/main.py (lines 20, 28-45).
def START_BALANCE : ℚ := 1000
def BASE_RISK : ℚ := 1/100
def MAX_DAILY_LOSS : ℚ := 3/100
def MAX_DRAWDOWN : ℚ := 1/10
def BASE_TP : ℚ := 20
def BASE_SL : ℚ := 10
def POINT_VALUE : ℚ := 1

/-- `SYMBOL_MAP = {"XAUUSD": "XAU/USD"}`. -/
def SYMBOL_MAP : List (String × String) := [("XAUUSD", "XAU/USD")]

/-- The keys of `SYMBOL_MAP`, i.e. what `for symbol in SYMBOL_MAP` iterates. -/
def SYMBOLS : List String := SYMBOL_MAP.map (·.1)

def STRATEGIES : List String :=
  ["SMA200_TREND", "SMA200_PULLBACK", "BREAKOUT",
   "MEAN_REVERSION", "MOMENTUM", "REVERSAL"]

/-- `datetime.utcnow()` together with its `.hour` and `.weekday()`
projections, passed explicitly to the embedded functions. -/
structure Clock where
  now : ℚ
  hour : Nat
  weekday : Nat
deriving DecidableEq

/-- A row of the `trades` table. -/
structure Trade where
  id : Nat
  symbol : String
  strategy : String
  action : String
  entry_price : ℚ
  exit_price : Option ℚ
  lot : ℚ
  status : String
  pnl : ℚ
  time_open : ℚ
  time_close : Option ℚ
deriving DecidableEq

/-- The 6-tuple `(id, symbol, strategy, action, entry_price, lot)` that
`manage_open_trades` selects and passes to `close_trade`. -/
structure TradeRow where
  id : Nat
  symbol : String
  strategy : String
  action : String
  entry : ℚ
  lot : ℚ
deriving DecidableEq

/-- A row of the `strategy_state` table. -/
structure StrategyRow where
  symbol : String
  strategy : String
  tp_mult : ℚ
  sl_mult : ℚ
  status : String
deriving DecidableEq

/-- A row of the `trade_context` table. -/
structure ContextRow where
  symbol : String
  strategy : String
  hour : Nat
  weekday : Nat
  blocked_until : Option ℚ
deriving DecidableEq

/-- The whole SQLite database of src/main.py. -/
structure DBState where
  trades : List Trade
  /-- `(time, balance)` samples, most recent first. -/
  balances : List (ℚ × ℚ)
  engine_status : String
  peak_balance : ℚ
  daily_date : String
  daily_pnl : ℚ
  strategy_state : List StrategyRow
  trade_context : List ContextRow
deriving DecidableEq

/-- `get_balance`: latest balance sample.  The source crashes on an empty
`balance` table; `init_db` guarantees it is never empty, and every state a
theorem below touches has a nonempty ledger. -/
def get_balance (s : DBState) : ℚ :=
  match s.balances with
  | [] => 0
  | b :: _ => b.2

/-- `update_balance(delta)`: append a new sample, then raise
`peak_balance` when the new balance exceeds it (`if bal > peak`). -/
def update_balance (s : DBState) (delta : ℚ) (now : ℚ) : DBState :=
  if s.peak_balance < get_balance s + delta then
    { s with balances := (now, get_balance s + delta) :: s.balances,
             peak_balance := get_balance s + delta }
  else
    { s with balances := (now, get_balance s + delta) :: s.balances }

/-- `is_context_blocked(symbol, strategy)`: blocked iff a row for the
current `(symbol, strategy, hour, weekday)` exists, its `blocked_until` is
non-null and parses to a time strictly after `now`. -/
def is_context_blocked (s : DBState) (symbol strategy : String) (c : Clock) : Bool :=
  match s.trade_context.find? (fun r =>
      r.symbol == symbol && r.strategy == strategy &&
      r.hour == c.hour && r.weekday == c.weekday) with
  | none => false
  | some r =>
    match r.blocked_until with
    | none => false
    | some t => decide (c.now < t)

/-- Predicate for the `trade_context` primary key. -/
def ctxKeyMatch (symbol strategy : String) (c : Clock) (r : ContextRow) : Bool :=
  r.symbol == symbol && r.strategy == strategy &&
  r.hour == c.hour && r.weekday == c.weekday

/-- `penalize_context(symbol, strategy)`: `INSERT OR REPLACE` of the row
for the current `(hour, weekday)` bucket with
`blocked_until = now + 6 hours`. -/
def penalize_context (s : DBState) (symbol strategy : String) (c : Clock) : DBState :=
  let row : ContextRow := ⟨symbol, strategy, c.hour, c.weekday, some (c.now + 21600)⟩
  if s.trade_context.any (ctxKeyMatch symbol strategy c) then
    { s with trade_context :=
        s.trade_context.map (fun r => if ctxKeyMatch symbol strategy c r then row else r) }
  else
    { s with trade_context := s.trade_context ++ [row] }

/-- `adaptive_levels(symbol, strategy)`: `(BASE_TP * tp_mult,
BASE_SL * sl_mult)`; `none` models the unpack crash when the
`strategy_state` row is missing. -/
def adaptive_levels (s : DBState) (symbol strategy : String) : Option (ℚ × ℚ) :=
  (s.strategy_state.find? (fun r => r.symbol == symbol && r.strategy == strategy)).map
    (fun r => (BASE_TP * r.tp_mult, BASE_SL * r.sl_mult))

/-- Next `AUTOINCREMENT` id for the `trades` table. -/
def nextId (s : DBState) : Nat :=
  (s.trades.map (·.id)).foldr max 0 + 1

/-- `open_trade(symbol, strategy, action, price)`.  The two guards return
(Python `None`) without touching the database; otherwise a fresh `OPEN`
row is inserted with `lot = round(balance * BASE_RISK / (sl * POINT_VALUE), 2)`.
`none` models the crash when the `strategy_state` row is missing. -/
def open_trade (s : DBState) (symbol strategy action : String) (price : ℚ)
    (c : Clock) : Option DBState :=
  if s.engine_status = "LOCKED" then some s
  else if is_context_blocked s symbol strategy c then some s
  else
    match adaptive_levels s symbol strategy with
    | none => none
    | some (_tp, sl) =>
      let lot := round2 (get_balance s * BASE_RISK / (sl * POINT_VALUE))
      some { s with trades := s.trades ++
        [⟨nextId s, symbol, strategy, action, price, none, lot, "OPEN", 0, c.now, none⟩] }

/-- The realised pnl `(price - entry) * direction * lot * POINT_VALUE`
that `close_trade` computes. -/
def realized (tr : TradeRow) (price : ℚ) : ℚ :=
  (price - tr.entry) * (if tr.action = "buy" then 1 else -1) * tr.lot * POINT_VALUE

/-- The per-row effect of `close_trade`'s `UPDATE ... WHERE id=?`. -/
def closeUpd (tr : TradeRow) (price : ℚ) (c : Clock) (pnl : ℚ) (t : Trade) : Trade :=
  if t.id = tr.id then
    { t with status := "CLOSED", exit_price := some price, pnl := pnl,
             time_close := some c.now }
  else t

/-- `close_trade(trade, price)`: mark the row CLOSED, append the pnl to
the balance ledger, and penalize the context on a non-positive pnl. -/
def close_trade (s : DBState) (tr : TradeRow) (price : ℚ) (c : Clock) : DBState :=
  if realized tr price ≤ 0 then
    penalize_context
      (update_balance
        { s with trades := s.trades.map (closeUpd tr price c (realized tr price)) }
        (realized tr price) c.now)
      tr.symbol tr.strategy c
  else
    update_balance
      { s with trades := s.trades.map (closeUpd tr price c (realized tr price)) }
      (realized tr price) c.now

/-- Projection to the 6-tuple that `manage_open_trades` selects. -/
def tradeToRow (t : Trade) : TradeRow :=
  ⟨t.id, t.symbol, t.strategy, t.action, t.entry_price, t.lot⟩

/-- `SELECT ... FROM trades WHERE status='OPEN' AND symbol=?`. -/
def openRows (s : DBState) (sym : String) : List TradeRow :=
  (s.trades.filter (fun t => t.status == "OPEN" && t.symbol == sym)).map tradeToRow

/-- The body of `manage_open_trades`'s inner loop for one selected row. -/
def manageRow (p : ℚ) (c : Clock) (s : DBState) (r : TradeRow) : Option DBState :=
  match adaptive_levels s r.symbol r.strategy with
  | none => none
  | some (tp, sl) =>
    let diff := (p - r.entry) * (if r.action = "buy" then 1 else -1)
    if tp ≤ diff ∨ diff ≤ -sl then some (close_trade s r p c) else some s

/-- One symbol of `manage_open_trades`: skip when the price is falsy
(`None` or `0.0`), else run the inner loop over the OPEN-row snapshot. -/
def manageSymbol (prices : String → Option ℚ) (c : Clock) (s : DBState)
    (sym : String) : Option DBState :=
  match prices sym with
  | none => some s
  | some p => if p = 0 then some s else (openRows s sym).foldlM (manageRow p c) s

/-- `manage_open_trades()`. -/
def manage_open_trades (s : DBState) (prices : String → Option ℚ)
    (c : Clock) : Option DBState :=
  SYMBOLS.foldlM (manageSymbol prices c) s

/-- Substring test on character lists, modelling Python's `"x" in body`. -/
def hasSubstr (needle : List Char) : List Char → Bool
  | [] => needle.isEmpty
  | c :: rest => needle.isPrefixOf (c :: rest) || hasSubstr needle rest

/-- `"buy" if "buy" in body else "sell" if "sell" in body else None`,
applied to the lowercased (per character, as `str.lower` does on ASCII)
request body. -/
def bodyAction (body : String) : Option String :=
  if hasSubstr "buy".toList (body.toList.map Char.toLower) then some "buy"
  else if hasSubstr "sell".toList (body.toList.map Char.toLower) then some "sell"
  else none

/-- Result of the `/webhook` endpoint: the 403 branch, an uncaught
exception (`crash`), or a JSON response together with the database state
left behind. -/
inductive WebhookResult where
  | forbidden
  | crash
  | response (state : DBState) (fields : List (String × String))
deriving DecidableEq

/-- The signal loop of `webhook`: for each symbol, skip on a falsy price,
else call `open_trade` for every strategy. -/
def signalSymbol (action : String) (prices : String → Option ℚ) (c : Clock)
    (s : DBState) (sym : String) : Option DBState :=
  match prices sym with
  | none => some s
  | some p =>
    if p = 0 then some s
    else STRATEGIES.foldlM (fun s strat => open_trade s sym strat action p c) s

/-- The `/webhook` handler of src/main.py: token check, body parsing,
`manage_open_trades()`, then one `open_trade` per symbol/strategy, and the
final `{"status": "ok", "engine": ...}` response.  `tokenOk` stands for
`request.query_params.get("token") == WEBHOOK_SECRET`. -/
def webhook (s : DBState) (tokenOk : Bool) (body : String)
    (prices : String → Option ℚ) (c : Clock) : WebhookResult :=
  if !tokenOk then .forbidden
  else
    match bodyAction body with
    | none => .response s [("status", "ignored")]
    | some action =>
      match manage_open_trades s prices c with
      | none => .crash
      | some s1 =>
        match SYMBOLS.foldlM (signalSymbol action prices c) s1 with
        | none => .crash
        | some s2 => .response s2 [("status", "ok"), ("engine", s2.engine_status)]

/-- The JSON object returned by the `/stats` endpoint. -/
structure StatsResult where
  engine : String
  balance : ℚ
  tradesCount : Nat
  winrate : Option ℚ
  expectancy : Option ℚ
deriving DecidableEq

/-- The pnl list `[t[0] for t in trades]` that `/stats` selects:
`SELECT pnl FROM trades WHERE status='CLOSED'`. -/
def closedPnls (s : DBState) : List ℚ :=
  (s.trades.filter (fun t => t.status == "CLOSED")).map (·.pnl)

/-- The `/stats` endpoint: pnls of CLOSED trades, win count, and the two
rounded ratios, `None` when there is no closed trade. -/
def stats (s : DBState) : StatsResult :=
  { engine := s.engine_status
    balance := get_balance s
    tradesCount := (closedPnls s).length
    winrate :=
      if (closedPnls s).isEmpty then none
      else some (round2 (((((closedPnls s).filter (fun p => decide (0 < p))).length : ℚ))
                           / (closedPnls s).length))
    expectancy :=
      if (closedPnls s).isEmpty then none
      else some (round2 ((closedPnls s).sum / (closedPnls s).length)) }

/-- The state produced by `init_db()` on a fresh database (time 0 for the
initial balance sample; `daily_date` is today's date string, irrelevant to
every claim). -/
def initState : DBState where
  trades := []
  balances := [(0, START_BALANCE)]
  engine_status := "LEARNING"
  peak_balance := START_BALANCE
  daily_date := ""
  daily_pnl := 0
  strategy_state := STRATEGIES.map (fun st => ⟨"XAUUSD", st, 1, 1, "ACTIVE"⟩)
  trade_context := []

end TvBot

namespace Bot

/-- A trade record in src/bot.py's `trades.json` (the fields
`update_weights` reads; `time` as seconds). -/
structure BTrade where
  strategy : String
  pnl : ℚ
  time : ℚ
deriving DecidableEq

/-- A weights table, modelling the JSON dict in `weights.json`. -/
abbrev Weights := List (String × ℚ)

/-- Dict lookup `weights[strat]`; `none` models a `KeyError`. -/
def lookupW : Weights → String → Option ℚ
  | [], _ => none
  | p :: w, k => if p.1 = k then some p.2 else lookupW w k

/-- Dict assignment `weights[strat] = v` (keys of a JSON dict are unique;
updating in place keeps the order). -/
def setW : Weights → String → ℚ → Weights
  | [], _, _ => []
  | p :: w, k, v => (if p.1 = k then (p.1, v) else p) :: setW w k v

/-- `max(0.3, min(x, 2.0))`. -/
def clampW (x : ℚ) : ℚ := max (3/10) (min x 2)

/-- The trades of the last 7 days:
`datetime.fromisoformat(t["time"]) > week_ago`. -/
def recentOf (trades : List BTrade) (now : ℚ) : List BTrade :=
  trades.filter (fun t => decide (now - 604800 < t.time))

/-- The distinct strategies appearing among recent trades, i.e. the keys
of the `stats` dict that `update_weights` builds. -/
def recentStrategies (trades : List BTrade) (now : ℚ) : List String :=
  ((recentOf trades now).map (·.strategy)).dedup

/-- The pnl list a given strategy contributes to the `stats` dict. -/
def pnlsOf (trades : List BTrade) (now : ℚ) (st : String) : List ℚ :=
  ((recentOf trades now).filter (fun t => t.strategy == st)).map (·.pnl)

/-- The new weight `update_weights` assigns to a strategy with recent
pnls `pnls` and old weight `x`. -/
def adjustedW (x : ℚ) (pnls : List ℚ) : ℚ :=
  clampW (if 0 < pnls.sum / pnls.length then x + 1/10 else x - 1/10)

/-- One iteration of `update_weights`' loop over `stats.items()`;
`none` models the `KeyError` when the strategy is absent from the dict. -/
def weightStep (trades : List BTrade) (now : ℚ) (w : Weights)
    (st : String) : Option Weights :=
  match lookupW w st with
  | none => none
  | some x => some (setW w st (adjustedW x (pnlsOf trades now st)))

/-- `update_weights()` of src/bot.py: group the last week's trades by
strategy, bump each grouped strategy's weight by `±0.1` on the sign of
its mean pnl, and clamp into `[0.3, 2.0]`. -/
def update_weights (trades : List BTrade) (w : Weights) (now : ℚ) : Option Weights :=
  (recentStrategies trades now).foldlM (weightStep trades now) w

/-- The initial contents of `weights.json`. -/
def initWeights : Weights :=
  [("SMC", 1), ("JAPAN", 1), ("SCALP", 1), ("PSND", 1), ("TREND", 1), ("MEAN", 1)]

end Bot

namespace TvBot

/-- A sequence of `close_trade` calls, each with its row, exit price and
clock, starting from `s`. -/
def closeFold (s : DBState) (cs : List (TradeRow × ℚ × Clock)) : DBState :=
  cs.foldl (fun s x => close_trade s x.1 x.2.1 x.2.2) s

/-- A sequence of `update_balance` calls, each with its delta and
timestamp, starting from `s`. -/
def applyUpdates (s : DBState) (ds : List (ℚ × ℚ)) : DBState :=
  ds.foldl (fun s d => update_balance s d.1 d.2) s

-- Concrete states used to evaluate the embedded code at specific inputs.

/-- Fresh engine whose status was set to `PAUSED`. -/
def sPaused : DBState := { initState with engine_status := "PAUSED" }

/-- Fresh engine whose status was set to `LOCKED`. -/
def sLocked : DBState := { initState with engine_status := "LOCKED" }

/-- Fresh engine with every `strategy_state` row set to `DISABLED`. -/
def sDisabledStrat : DBState :=
  { initState with
    strategy_state := STRATEGIES.map (fun st => ⟨"XAUUSD", st, 1, 1, "DISABLED"⟩) }

/-- Fresh engine whose latest balance is `0.4`. -/
def sLowBalance : DBState := { initState with balances := [(0, 2/5)] }

/-- A buy of one lot at entry 2000, as a `close_trade` argument row. -/
def ddTrade : TradeRow := ⟨1, "XAUUSD", "SMA200_TREND", "buy", 2000, 1⟩

/-- The fresh engine after closing `ddTrade` at 1900: a 100-point loss,
bringing the balance from 1000 to 900 against a peak of 1000. -/
def sAfterLoss : DBState := close_trade initState ddTrade 1900 ⟨0, 14, 2⟩

/-- Fresh engine holding one OPEN buy at entry 100 (scenario-D shape). -/
def sTrail : DBState :=
  { initState with
    trades := [⟨1, "XAUUSD", "SMA200_TREND", "buy", 100, none, 1, "OPEN", 0, 0, none⟩] }

/-- Fresh engine holding one already-CLOSED trade (id 1). -/
def sReClosed : DBState :=
  { initState with
    trades := [⟨1, "XAUUSD", "SMA200_TREND", "buy", 100, some 130, 1, "CLOSED", 30, 0, some 1⟩] }

/-- The row tuple of the CLOSED trade of `sReClosed`. -/
def trReClose : TradeRow := ⟨1, "XAUUSD", "SMA200_TREND", "buy", 100, 1⟩

/-- Fresh engine holding one CLOSED trade (id 1) and one OPEN trade (id 2). -/
def sMixed : DBState :=
  { initState with
    trades :=
      [⟨1, "XAUUSD", "SMA200_TREND", "buy", 100, some 130, 1, "CLOSED", 30, 0, some 1⟩,
       ⟨2, "XAUUSD", "SMA200_TREND", "buy", 100, none, 1, "OPEN", 0, 0, none⟩] }

/-- A price snapshot answering 130 for every symbol. -/
def p130 : String → Option ℚ := fun _ => some 130

/-- What one management cycle at price 130 makes of `sMixed`: the OPEN
trade closes at take-profit, the CLOSED one is untouched. -/
def sMixedAfter : DBState :=
  { initState with
    trades :=
      [⟨1, "XAUUSD", "SMA200_TREND", "buy", 100, some 130, 1, "CLOSED", 30, 0, some 1⟩,
       ⟨2, "XAUUSD", "SMA200_TREND", "buy", 100, some 130, 1, "CLOSED", 30, 0, some 5⟩],
    balances := [(5, 1030), (0, 1000)],
    peak_balance := 1030 }

/-- Fresh engine holding two CLOSED trades with pnls 12 and -2. -/
def sStats : DBState :=
  { initState with
    trades :=
      [⟨1, "XAUUSD", "SMA200_TREND", "buy", 100, some 112, 1, "CLOSED", 12, 0, some 1⟩,
       ⟨2, "XAUUSD", "BREAKOUT", "buy", 100, some 98, 1, "CLOSED", -2, 0, some 1⟩] }

end TvBot

namespace Bot

/-- One recent winning trade of strategy SMC. -/
def tds0 : List BTrade := [⟨"SMC", 5, 100⟩]

end Bot

namespace TvBot

theorem get_balance_update (s : DBState) (d t : ℚ) :
    get_balance (update_balance s d t) = get_balance s + d := by
  unfold update_balance
  split <;> rfl

theorem update_balance_trades (s : DBState) (d t : ℚ) :
    (update_balance s d t).trades = s.trades := by
  unfold update_balance
  split <;> rfl

theorem penalize_trades (s : DBState) (sym strat : String) (c : Clock) :
    (penalize_context s sym strat c).trades = s.trades := by
  unfold penalize_context
  split <;> rfl

theorem penalize_balances (s : DBState) (sym strat : String) (c : Clock) :
    (penalize_context s sym strat c).balances = s.balances := by
  unfold penalize_context
  split <;> rfl

theorem get_balance_penalize (s : DBState) (sym strat : String) (c : Clock) :
    get_balance (penalize_context s sym strat c) = get_balance s := by
  unfold get_balance
  rw [penalize_balances]

theorem get_balance_set_trades (s : DBState) (l : List Trade) :
    get_balance { s with trades := l } = get_balance s := rfl

theorem get_balance_close (s : DBState) (tr : TradeRow) (p : ℚ) (c : Clock) :
    get_balance (close_trade s tr p c) = get_balance s + realized tr p := by
  unfold close_trade
  split
  · rw [get_balance_penalize, get_balance_update, get_balance_set_trades]
  · rw [get_balance_update, get_balance_set_trades]

theorem closeFold_balance (cs : List (TradeRow × ℚ × Clock)) :
    ∀ s : DBState, get_balance (closeFold s cs) =
      get_balance s + (cs.map (fun x => realized x.1 x.2.1)).sum := by
  induction cs with
  | nil => intro s; simp [closeFold]
  | cons hd tl ih =>
    intro s
    simp only [closeFold, List.foldl_cons, List.map_cons, List.sum_cons]
    have := ih (close_trade s hd.1 hd.2.1 hd.2.2)
    simp only [closeFold] at this
    rw [this, get_balance_close]
    ring

/-- C2: for every sequence of trade closes, each realising the pnl that
`close_trade` computes, the latest balance after folding the closes over
the fresh engine (whose ledger holds only the START_BALANCE sample)
equals START_BALANCE plus the sum of the realised pnls. -/
theorem c2_balance_conservation (cs : List (TradeRow × ℚ × Clock)) :
    get_balance (closeFold initState cs) =
      START_BALANCE + (cs.map (fun x => realized x.1 x.2.1)).sum := by
  rw [closeFold_balance]
  rfl

theorem peak_update_le (s : DBState) (d t : ℚ) :
    s.peak_balance ≤ (update_balance s d t).peak_balance := by
  unfold update_balance
  split
  · exact le_of_lt (by assumption)
  · exact le_refl _

theorem balance_le_peak_update (s : DBState) (d t : ℚ) :
    get_balance (update_balance s d t) ≤ (update_balance s d t).peak_balance := by
  rw [get_balance_update]
  unfold update_balance
  split
  · exact le_refl _
  · exact le_of_not_lt (by assumption)

theorem applyUpdates_peak (ds : List (ℚ × ℚ)) :
    ∀ s : DBState, s.peak_balance ≤ (applyUpdates s ds).peak_balance := by
  induction ds with
  | nil => intro s; simp [applyUpdates]
  | cons hd tl ih =>
    intro s
    simp only [applyUpdates, List.foldl_cons]
    have h1 := peak_update_le s hd.1 hd.2
    have h2 := ih (update_balance s hd.1 hd.2)
    simp only [applyUpdates] at h2
    exact le_trans h1 h2

/-- C4: `peak_balance` never decreases under a balance update, after any
update it dominates the latest balance, and it is monotone across any
sequence of updates. -/
theorem c4_peak_monotone (s : DBState) (d t : ℚ) (ds : List (ℚ × ℚ)) :
    s.peak_balance ≤ (update_balance s d t).peak_balance ∧
    get_balance (update_balance s d t) ≤ (update_balance s d t).peak_balance ∧
    s.peak_balance ≤ (applyUpdates s ds).peak_balance :=
  ⟨peak_update_le s d t, balance_le_peak_update s d t, applyUpdates_peak ds s⟩

end TvBot

namespace TvBot

/-- C9: with no CLOSED trade, `/stats` returns `null` for winrate and
expectancy instead of dividing by zero; with at least one CLOSED trade it
returns the win fraction and the mean pnl, each rounded to 2 decimals. -/
theorem c9_stats_guard (s : DBState) :
    (closedPnls s = [] → (stats s).winrate = none ∧ (stats s).expectancy = none) ∧
    (closedPnls s ≠ [] →
      (stats s).winrate =
        some (round2 (((((closedPnls s).filter (fun p => decide (0 < p))).length : ℚ))
                        / (closedPnls s).length)) ∧
      (stats s).expectancy =
        some (round2 ((closedPnls s).sum / (closedPnls s).length))) := by
  constructor
  · intro h
    simp [stats, h]
  · intro h
    have hne : (closedPnls s).isEmpty = false := by
      cases hc : closedPnls s
      · exact absurd hc h
      · rfl
    simp [stats, hne]

/-- Hypothesis-discharging instance of `c9_stats_guard` at a state with
two closed trades (pnls 12 and -2): winrate 0.5, expectancy 5. -/
theorem c9_stats_guard_witness :
    closedPnls sStats ≠ [] ∧
    (stats sStats).winrate = some (1/2) ∧ (stats sStats).expectancy = some 5 := by
  have h := (c9_stats_guard sStats).2 (by decide)
  refine ⟨by decide, ?_, ?_⟩
  · rw [h.1]; norm_num [closedPnls, sStats, initState, round2]
  · rw [h.2]; norm_num [closedPnls, sStats, initState, round2]

/-- C1 counterexample: with engine status `PAUSED` (and likewise with the
strategy DISABLED) `open_trade` still inserts a trade row — the code only
rejects the literal status `LOCKED` and never consults `strategy_state`. -/
theorem c1_counterexample :
    sPaused.engine_status = "PAUSED" ∧
    (open_trade sPaused "XAUUSD" "SMA200_TREND" "buy" 2000 ⟨0, 14, 2⟩).map
      (fun s => s.trades.length) = some 1 ∧
    (∀ r ∈ sDisabledStrat.strategy_state, r.status = "DISABLED") ∧
    (open_trade sDisabledStrat "XAUUSD" "SMA200_TREND" "buy" 2000 ⟨0, 14, 2⟩).map
      (fun s => s.trades.length) = some 1 := by decide

/-- C1 amended: `open_trade` is a guarded no-op exactly for the literal
engine status `LOCKED` or an active context block — it returns the
database unchanged (and Python `None`, i.e. no rejection reason). -/
theorem c1_amended (s : DBState) (symbol strategy action : String) (price : ℚ)
    (c : Clock)
    (h : s.engine_status = "LOCKED" ∨ is_context_blocked s symbol strategy c = true) :
    open_trade s symbol strategy action price c = some s := by
  rcases h with h | h
  · simp [open_trade, h]
  · by_cases hL : s.engine_status = "LOCKED" <;> simp [open_trade, hL, h]

/-- Hypothesis-discharging instance of `c1_amended` at a LOCKED engine. -/
theorem c1_amended_witness :
    (sLocked.engine_status = "LOCKED" ∨
      is_context_blocked sLocked "XAUUSD" "SMA200_TREND" ⟨0, 14, 2⟩ = true) ∧
    open_trade sLocked "XAUUSD" "SMA200_TREND" "buy" 2000 ⟨0, 14, 2⟩ = some sLocked :=
  ⟨Or.inl rfl,
   c1_amended sLocked "XAUUSD" "SMA200_TREND" "buy" 2000 ⟨0, 14, 2⟩ (Or.inl rfl)⟩

/-- C3 counterexample: at the positive balance 0.4 (stop distance 10,
point value 1) the code computes lot = round(0.0004, 2) = 0 — there is no
minimum-lot floor, so the claimed "never zero" fails. -/
theorem c3_counterexample :
    0 < get_balance sLowBalance ∧
    (open_trade sLowBalance "XAUUSD" "SMA200_TREND" "buy" 2000 ⟨0, 14, 2⟩).map
      (fun s => s.trades.map (·.lot)) = some [0] := by
  constructor
  · norm_num [get_balance, sLowBalance]
  · simp [open_trade, sLowBalance, initState, is_context_blocked, adaptive_levels,
      STRATEGIES, get_balance, nextId]
    norm_num [round2, BASE_RISK, BASE_TP, BASE_SL, POINT_VALUE]

/-- C3 amended: the inserted lot is
`round2(balance * BASE_RISK / (sl * POINT_VALUE))` with no minimum-lot
floor (so it can round to zero); at balance 1000, risk 0.01, SL 10,
point value 1 it is 1.0. -/
theorem c3_amended (s : DBState) (symbol strategy action : String) (price : ℚ)
    (c : Clock) (tp sl : ℚ)
    (hL : s.engine_status ≠ "LOCKED")
    (hB : is_context_blocked s symbol strategy c = false)
    (hA : adaptive_levels s symbol strategy = some (tp, sl)) :
    (open_trade s symbol strategy action price c).map (fun s1 => s1.trades.map (·.lot)) =
      some (s.trades.map (·.lot) ++
        [round2 (get_balance s * BASE_RISK / (sl * POINT_VALUE))]) ∧
    (open_trade initState "XAUUSD" "SMA200_TREND" "buy" 2000 ⟨0, 14, 2⟩).map
      (fun s1 => s1.trades.map (·.lot)) = some [1] := by
  constructor
  · simp [open_trade, hL, hB, hA]
  · simp [open_trade, initState, is_context_blocked, adaptive_levels,
      STRATEGIES, get_balance, nextId]
    norm_num [round2, BASE_RISK, BASE_TP, BASE_SL, POINT_VALUE, START_BALANCE]

/-- Hypothesis-discharging instance of `c3_amended` at the fresh engine. -/
theorem c3_amended_witness :
    initState.engine_status ≠ "LOCKED" ∧
    is_context_blocked initState "XAUUSD" "SMA200_TREND" ⟨0, 14, 2⟩ = false ∧
    adaptive_levels initState "XAUUSD" "SMA200_TREND" = some (20, 10) ∧
    (open_trade initState "XAUUSD" "SMA200_TREND" "buy" 2000 ⟨0, 14, 2⟩).map
      (fun s1 => s1.trades.map (·.lot)) =
      some (initState.trades.map (·.lot) ++
        [round2 (get_balance initState * BASE_RISK / (10 * POINT_VALUE))]) := by
  have hA : adaptive_levels initState "XAUUSD" "SMA200_TREND" = some (20, 10) := by
    norm_num [adaptive_levels, initState, STRATEGIES, BASE_TP, BASE_SL]
  refine ⟨by decide, by decide, hA, ?_⟩
  exact (c3_amended initState "XAUUSD" "SMA200_TREND" "buy" 2000 ⟨0, 14, 2⟩ 20 10
    (by decide) (by decide) hA).1

/-- C6: the code contains no drawdown check.  After a 100-point losing
close the drawdown (peak 1000, balance 900) meets MAX_DRAWDOWN, yet the
engine status is still LEARNING (never DD_LOCK/LOCKED) and a subsequent
`open_trade` inserts a new trade instead of being rejected. -/
theorem c6_no_drawdown_lock :
    get_balance sAfterLoss = 900 ∧
    sAfterLoss.peak_balance = 1000 ∧
    MAX_DRAWDOWN ≤
      (sAfterLoss.peak_balance - get_balance sAfterLoss) / sAfterLoss.peak_balance ∧
    sAfterLoss.engine_status = "LEARNING" ∧
    (open_trade sAfterLoss "XAUUSD" "BREAKOUT" "buy" 2000 ⟨10, 14, 2⟩).map
      (fun s => s.trades.length) = some 1 := by
  have hS : sAfterLoss =
      { initState with
        balances := [(0, 900), (0, 1000)],
        trade_context := [⟨"XAUUSD", "SMA200_TREND", 14, 2, some 21600⟩] } := by
    simp [sAfterLoss, close_trade, realized, ddTrade, initState, update_balance,
      penalize_context, get_balance, ctxKeyMatch, POINT_VALUE, START_BALANCE]
    norm_num
  rw [hS]
  refine ⟨?_, ?_, ?_, ?_, ?_⟩
  · norm_num [get_balance]
  · norm_num [initState, START_BALANCE]
  · norm_num [get_balance, initState, START_BALANCE, MAX_DRAWDOWN]
  · rfl
  · simp [open_trade, initState, is_context_blocked, adaptive_levels, STRATEGIES,
      get_balance, nextId]

set_option maxHeartbeats 2000000 in
/-- C7: the code has no trailing stop.  On an OPEN buy at entry 100 with
tp distance 20, a price of 130 makes `manage_open_trades` close the whole
position at 130 immediately; no `trailing_sl` field exists anywhere in
the trades schema and no stop is ever ratcheted. -/
theorem c7_no_trailing_stop :
    (manage_open_trades sTrail p130 ⟨5, 14, 2⟩).map
      (fun s => s.trades.map (fun t => (t.status, t.exit_price, t.pnl))) =
      some [("CLOSED", some 130, 30)] := by
  simp [manage_open_trades, SYMBOLS, SYMBOL_MAP, manageSymbol, p130, openRows,
    sTrail, initState, manageRow, adaptive_levels, STRATEGIES, tradeToRow,
    close_trade, realized, closeUpd, update_balance, penalize_context, get_balance,
    ctxKeyMatch, BASE_TP, BASE_SL, POINT_VALUE, START_BALANCE,
    List.foldlM_cons, List.foldlM_nil]
  norm_num

end TvBot

namespace TvBot

/-- C8 counterexample: prices unavailable for every symbol, yet the
webhook's response is `{"status": "ok", "engine": ...}` — no field carries
the claimed "no_price"/"no_market_data" reason. -/
theorem c8_counterexample :
    webhook initState true "buy signal" (fun _ => none) ⟨0, 14, 2⟩ =
      .response initState [("status", "ok"), ("engine", "LEARNING")] ∧
    ∀ kv ∈ [("status", "ok"), ("engine", "LEARNING")],
      kv.2 ≠ "no_price" ∧ kv.2 ≠ "no_market_data" := by
  constructor
  · have hb : bodyAction "buy signal" = some "buy" := by decide
    simp [webhook, hb, manage_open_trades, manageSymbol, signalSymbol,
      SYMBOLS, SYMBOL_MAP, initState, List.foldlM_cons, List.foldlM_nil]
  · decide

/-- C8 amended: when the price fetch yields `None` for every symbol, the
webhook opens no trade, manages no open trade, leaves the database
untouched and does not crash — but the caller is NOT told "no_price":
the response is plain `ignored`/`ok`. -/
theorem c8_amended (s : DBState) (body : String) (prices : String → Option ℚ)
    (c : Clock) (h : ∀ sym ∈ SYMBOLS, prices sym = none) :
    webhook s true body prices c = .response s
      (match bodyAction body with
       | none => [("status", "ignored")]
       | some _ => [("status", "ok"), ("engine", s.engine_status)]) := by
  have h1 : prices "XAUUSD" = none := h "XAUUSD" (by decide)
  cases hb : bodyAction body with
  | none => simp [webhook, hb]
  | some a =>
    simp [webhook, hb, manage_open_trades, manageSymbol, signalSymbol,
      SYMBOLS, SYMBOL_MAP, h1, List.foldlM_cons, List.foldlM_nil]

/-- Hypothesis-discharging instance of `c8_amended` on the fresh engine
with an all-`None` price snapshot. -/
theorem c8_amended_witness :
    (∀ sym ∈ SYMBOLS, (fun (_ : String) => (none : Option ℚ)) sym = none) ∧
    webhook initState true "buy" (fun _ => none) ⟨0, 14, 2⟩ =
      .response initState [("status", "ok"), ("engine", "LEARNING")] := by
  refine ⟨fun sym _ => rfl, ?_⟩
  have h := c8_amended initState "buy" (fun _ => none) ⟨0, 14, 2⟩ (fun sym _ => rfl)
  rw [h]
  have hb : bodyAction "buy" = some "buy" := by decide
  rw [hb]
  rfl

end TvBot

namespace TvBot

theorem closeUpd_id (tr : TradeRow) (p : ℚ) (c : Clock) (pnl : ℚ) (t : Trade) :
    (closeUpd tr p c pnl t).id = t.id := by
  unfold closeUpd
  split <;> rfl

theorem close_trades (s : DBState) (tr : TradeRow) (p : ℚ) (c : Clock) :
    (close_trade s tr p c).trades = s.trades.map (closeUpd tr p c (realized tr p)) := by
  unfold close_trade
  split
  · rw [penalize_trades, update_balance_trades]
  · rw [update_balance_trades]

theorem map_id_closeUpd (tr : TradeRow) (p : ℚ) (c : Clock) (pnl : ℚ) :
    ∀ l : List Trade, (l.map (closeUpd tr p c pnl)).map (·.id) = l.map (·.id) := by
  intro l
  induction l with
  | nil => rfl
  | cons t ts ih => simp [List.map_cons, closeUpd_id, ih]

theorem close_trades_map_id (s : DBState) (tr : TradeRow) (p : ℚ) (c : Clock) :
    (close_trade s tr p c).trades.map (·.id) = s.trades.map (·.id) := by
  rw [close_trades]
  exact map_id_closeUpd tr p c (realized tr p) s.trades

theorem close_trades_getElem (s : DBState) (tr : TradeRow) (p : ℚ) (c : Clock)
    (i : Nat) (t : Trade) (ht : s.trades[i]? = some t) (hid : t.id ≠ tr.id) :
    (close_trade s tr p c).trades[i]? = some t := by
  rw [close_trades, List.getElem?_map, ht]
  simp [closeUpd, hid]

theorem openRows_mem {s : DBState} {sym : String} {r : TradeRow}
    (h : r ∈ openRows s sym) :
    ∃ (j : Nat) (t : Trade),
      s.trades[j]? = some t ∧ t.status = "OPEN" ∧ r.id = t.id := by
  unfold openRows at h
  obtain ⟨t, ht, rfl⟩ := List.mem_map.1 h
  have ht' := List.mem_filter.1 ht
  obtain ⟨j, hj⟩ := List.getElem?_of_mem ht'.1
  refine ⟨j, t, hj, ?_, rfl⟩
  have hb := ht'.2
  simp only [Bool.and_eq_true, beq_iff_eq] at hb
  exact hb.1

theorem nodup_getElem_ne {l : List Nat} (hl : l.Nodup) {i j : Nat} (hij : i ≠ j)
    {a b : Nat} (ha : l[i]? = some a) (hb : l[j]? = some b) : a ≠ b := by
  have hi : i < l.length := by
    rcases Nat.lt_or_ge i l.length with h | h
    · exact h
    · rw [List.getElem?_eq_none h] at ha; cases ha
  have hj2 : j < l.length := by
    rcases Nat.lt_or_ge j l.length with h | h
    · exact h
    · rw [List.getElem?_eq_none h] at hb; cases hb
  have ha' : l[i] = a := by
    rw [List.getElem?_eq_getElem hi] at ha
    exact Option.some.inj ha
  have hb' : l[j] = b := by
    rw [List.getElem?_eq_getElem hj2] at hb
    exact Option.some.inj hb
  subst ha' hb'
  have hpw := List.pairwise_iff_getElem.1 hl
  rcases Nat.lt_or_gt_of_ne hij with h | h
  · exact hpw i j hi hj2 h
  · exact fun hab => (hpw j i hj2 hi h) hab.symm

theorem row_id_ne {s : DBState} {sym : String} {i : Nat} {t : Trade}
    (hnd : (s.trades.map (·.id)).Nodup) (ht : s.trades[i]? = some t)
    (hcl : t.status = "CLOSED") {r : TradeRow} (hr : r ∈ openRows s sym) :
    r.id ≠ t.id := by
  obtain ⟨j, t', hj, hopen, hrid⟩ := openRows_mem hr
  have hij : i ≠ j := by
    intro h
    subst h
    have : t = t' := Option.some.inj (ht.symm.trans hj)
    rw [← this, hcl] at hopen
    exact absurd hopen (by decide)
  have hti : (s.trades.map (·.id))[i]? = some t.id := by
    rw [List.getElem?_map, ht]; rfl
  have htj : (s.trades.map (·.id))[j]? = some t'.id := by
    rw [List.getElem?_map, hj]; rfl
  intro heq
  exact (nodup_getElem_ne hnd hij hti htj) (heq ▸ hrid)

theorem manageRow_inv {p : ℚ} {c : Clock} {s s' : DBState} {r : TradeRow}
    (h : manageRow p c s r = some s') {i : Nat} {t : Trade}
    (ht : s.trades[i]? = some t) (hid : r.id ≠ t.id) :
    s'.trades.map (·.id) = s.trades.map (·.id) ∧ s'.trades[i]? = some t := by
  unfold manageRow at h
  cases hA : adaptive_levels s r.symbol r.strategy with
  | none => rw [hA] at h; cases h
  | some lv =>
    obtain ⟨tp, sl⟩ := lv
    rw [hA] at h
    simp only at h
    have hcs : s' = close_trade s r p c ∨ s' = s := by
      split at h <;> split at h <;>
        first
          | exact Or.inl (Option.some.inj h).symm
          | exact Or.inr (Option.some.inj h).symm
    rcases hcs with rfl | rfl
    · exact ⟨close_trades_map_id s r p c,
             close_trades_getElem s r p c i t ht (fun hh => hid hh.symm)⟩
    · exact ⟨rfl, ht⟩

theorem foldRows_inv {p : ℚ} {c : Clock} (rows : List TradeRow) {t : Trade}
    (hrows : ∀ r ∈ rows, r.id ≠ t.id) :
    ∀ {s s' : DBState} {i : Nat}, s.trades[i]? = some t →
      rows.foldlM (manageRow p c) s = some s' →
      s'.trades.map (·.id) = s.trades.map (·.id) ∧ s'.trades[i]? = some t := by
  induction rows with
  | nil =>
    intro s s' i ht h
    rw [List.foldlM_nil] at h
    obtain rfl := Option.some.inj h
    exact ⟨rfl, ht⟩
  | cons r rest ih =>
    intro s s' i ht h
    rw [List.foldlM_cons] at h
    cases hm : manageRow p c s r with
    | none => rw [hm] at h; cases h
    | some s1 =>
      rw [hm] at h
      have h1 : rest.foldlM (manageRow p c) s1 = some s' := h
      have inv1 := manageRow_inv hm ht (hrows r (List.mem_cons_self r rest))
      have inv2 := ih (fun r2 hr2 => hrows r2 (List.mem_cons_of_mem r hr2)) inv1.2 h1
      exact ⟨inv2.1.trans inv1.1, inv2.2⟩

theorem manageSymbol_inv {prices : String → Option ℚ} {c : Clock}
    {s s' : DBState} {sym : String} {i : Nat} {t : Trade}
    (hnd : (s.trades.map (·.id)).Nodup) (ht : s.trades[i]? = some t)
    (hcl : t.status = "CLOSED")
    (h : manageSymbol prices c s sym = some s') :
    s'.trades.map (·.id) = s.trades.map (·.id) ∧ s'.trades[i]? = some t := by
  unfold manageSymbol at h
  cases hp : prices sym with
  | none => rw [hp] at h; obtain rfl := Option.some.inj h; exact ⟨rfl, ht⟩
  | some p =>
    rw [hp] at h
    simp only at h
    split at h
    · obtain rfl := Option.some.inj h; exact ⟨rfl, ht⟩
    · exact foldRows_inv (openRows s sym)
        (fun r hr => row_id_ne hnd ht hcl hr) ht h

theorem foldSymbols_inv {prices : String → Option ℚ} {c : Clock}
    (syms : List String) {t : Trade} :
    ∀ {s s' : DBState} {i : Nat}, (s.trades.map (·.id)).Nodup →
      s.trades[i]? = some t → t.status = "CLOSED" →
      syms.foldlM (manageSymbol prices c) s = some s' →
      s'.trades.map (·.id) = s.trades.map (·.id) ∧ s'.trades[i]? = some t := by
  induction syms with
  | nil =>
    intro s s' i _ ht _ h
    rw [List.foldlM_nil] at h
    obtain rfl := Option.some.inj h
    exact ⟨rfl, ht⟩
  | cons sym rest ih =>
    intro s s' i hnd ht hcl h
    rw [List.foldlM_cons] at h
    cases hm : manageSymbol prices c s sym with
    | none => rw [hm] at h; cases h
    | some s1 =>
      rw [hm] at h
      have h1 : rest.foldlM (manageSymbol prices c) s1 = some s' := h
      have inv1 := manageSymbol_inv hnd ht hcl hm
      have hnd1 : (s1.trades.map (·.id)).Nodup := inv1.1 ▸ hnd
      have inv2 := ih hnd1 inv1.2 hcl h1
      exact ⟨inv2.1.trans inv1.1, inv2.2⟩

/-- C5 amended: `close_trade` itself has no status guard (see the
counterexample), but the code's only close path, `manage_open_trades`,
selects only OPEN rows: a trade that is already CLOSED before a management
cycle is bit-for-bit unchanged after it, so each trade transitions
OPEN→CLOSED at most once along the code's own call path. -/
theorem c5_amended (s : DBState) (prices : String → Option ℚ) (c : Clock)
    (i : Nat) (t : Trade) (s' : DBState)
    (hnd : (s.trades.map (·.id)).Nodup)
    (ht : s.trades[i]? = some t) (hcl : t.status = "CLOSED")
    (hm : manage_open_trades s prices c = some s') :
    s'.trades[i]? = some t :=
  (foldSymbols_inv SYMBOLS hnd ht hcl hm).2

/-- C5 counterexample: calling `close_trade` directly on an
already-CLOSED row is not a no-op: it appends the pnl to the balance
ledger again (1000 → 1030), violating "a second close attempt ... does
not alter balance". -/
theorem c5_counterexample :
    (sReClosed.trades.map (·.status)) = ["CLOSED"] ∧
    get_balance sReClosed = 1000 ∧
    get_balance (close_trade sReClosed trReClose 130 ⟨2, 14, 2⟩) = 1030 := by
  refine ⟨by decide, by norm_num [get_balance, sReClosed, initState, START_BALANCE], ?_⟩
  rw [get_balance_close]
  norm_num [get_balance, sReClosed, initState, START_BALANCE, realized, trReClose,
    POINT_VALUE]

end TvBot

namespace TvBot

set_option maxHeartbeats 2000000 in
/-- Hypothesis-discharging instance of `c5_amended`: one management cycle
at price 130 on a CLOSED trade (id 1) plus an OPEN one (id 2) closes only
the OPEN one and returns the CLOSED record untouched at index 0. -/
theorem c5_amended_witness :
    (sMixed.trades.map (·.id)).Nodup ∧
    manage_open_trades sMixed p130 ⟨5, 14, 2⟩ = some sMixedAfter ∧
    sMixedAfter.trades[0]? =
      some ⟨1, "XAUUSD", "SMA200_TREND", "buy", 100, some 130, 1, "CLOSED", 30, 0, some 1⟩ := by
  have hm : manage_open_trades sMixed p130 ⟨5, 14, 2⟩ = some sMixedAfter := by
    simp [manage_open_trades, SYMBOLS, SYMBOL_MAP, manageSymbol, p130, openRows,
      sMixed, sMixedAfter, initState, manageRow, adaptive_levels, STRATEGIES,
      tradeToRow, close_trade, realized, closeUpd, update_balance, penalize_context,
      get_balance, ctxKeyMatch, BASE_TP, BASE_SL, POINT_VALUE, START_BALANCE,
      List.foldlM_cons, List.foldlM_nil]
    norm_num
  refine ⟨by decide, hm, ?_⟩
  exact c5_amended sMixed p130 ⟨5, 14, 2⟩ 0
    ⟨1, "XAUUSD", "SMA200_TREND", "buy", 100, some 130, 1, "CLOSED", 30, 0, some 1⟩
    sMixedAfter (by decide) (by decide) (by decide) hm

end TvBot

namespace Bot

theorem lookupW_setW_ne (k k' : String) (v : ℚ) (h : k' ≠ k) :
    ∀ w : Weights, lookupW (setW w k v) k' = lookupW w k' := by
  intro w
  induction w with
  | nil => rfl
  | cons p rest ih =>
    by_cases hp : p.1 = k
    · have hne : ¬ p.1 = k' := fun hh => h (hh ▸ hp)
      simp [setW, lookupW, hp, hne, Ne.symm h, ih]
    · by_cases hk' : p.1 = k'
      · simp [setW, lookupW, hp, hk', h]
      · simp [setW, lookupW, hp, hk', ih]

theorem lookupW_setW_self (k : String) (v : ℚ) :
    ∀ (w : Weights) (x : ℚ), lookupW w k = some x →
      lookupW (setW w k v) k = some v := by
  intro w
  induction w with
  | nil => intro x h; cases h
  | cons p rest ih =>
    intro x h
    by_cases hp : p.1 = k
    · simp [setW, lookupW, hp]
    · simp only [lookupW, if_neg hp] at h
      simp [setW, lookupW, hp]
      exact (ih x h).symm ▸ rfl

theorem weightStep_lookup_ne {tds : List BTrade} {now : ℚ} {w w1 : Weights}
    {a : String} (hm : weightStep tds now w a = some w1) {st : String}
    (hne : st ≠ a) : lookupW w1 st = lookupW w st := by
  unfold weightStep at hm
  cases hx : lookupW w a with
  | none => rw [hx] at hm; cases hm
  | some x =>
    rw [hx] at hm
    obtain rfl := Option.some.inj hm
    exact lookupW_setW_ne a st _ hne w

theorem weightStep_lookup_self {tds : List BTrade} {now : ℚ} {w w1 : Weights}
    {a : String} (hm : weightStep tds now w a = some w1) :
    ∃ x, lookupW w a = some x ∧
      lookupW w1 a = some (adjustedW x (pnlsOf tds now a)) := by
  unfold weightStep at hm
  cases hx : lookupW w a with
  | none => rw [hx] at hm; cases hm
  | some x =>
    rw [hx] at hm
    obtain rfl := Option.some.inj hm
    exact ⟨x, rfl, lookupW_setW_self a _ w x hx⟩

theorem adjustedW_bounds (x : ℚ) (pnls : List ℚ) :
    3/10 ≤ adjustedW x pnls ∧ adjustedW x pnls ≤ 2 := by
  unfold adjustedW clampW
  constructor
  · exact le_max_left _ _
  · exact max_le (by norm_num) (min_le_right _ _)

theorem foldW_not_mem (tds : List BTrade) (now : ℚ) :
    ∀ (sts : List String) (st : String), st ∉ sts →
      ∀ {w w' : Weights}, sts.foldlM (weightStep tds now) w = some w' →
        lookupW w' st = lookupW w st := by
  intro sts
  induction sts with
  | nil =>
    intro st _ w w' hf
    rw [List.foldlM_nil] at hf
    obtain rfl := Option.some.inj hf
    rfl
  | cons a rest ih =>
    intro st h w w' hf
    rw [List.foldlM_cons] at hf
    cases hm : weightStep tds now w a with
    | none => rw [hm] at hf; cases hf
    | some w1 =>
      rw [hm] at hf
      have h1 : rest.foldlM (weightStep tds now) w1 = some w' := hf
      have hne : st ≠ a := fun hh => h (hh ▸ List.mem_cons_self a rest)
      rw [ih st (fun hh => h (List.mem_cons_of_mem a hh)) h1]
      exact weightStep_lookup_ne hm hne

theorem foldW_mem (tds : List BTrade) (now : ℚ) :
    ∀ (sts : List String), sts.Nodup → ∀ st ∈ sts,
      ∀ {w w' : Weights}, sts.foldlM (weightStep tds now) w = some w' →
        ∃ x, lookupW w st = some x ∧
          lookupW w' st = some (adjustedW x (pnlsOf tds now st)) := by
  intro sts
  induction sts with
  | nil => intro _ st hst; cases hst
  | cons a rest ih =>
    intro hnd st hst w w' hf
    rw [List.foldlM_cons] at hf
    cases hm : weightStep tds now w a with
    | none => rw [hm] at hf; cases hf
    | some w1 =>
      rw [hm] at hf
      have h1 : rest.foldlM (weightStep tds now) w1 = some w' := hf
      rcases List.mem_cons.1 hst with rfl | hst'
      · obtain ⟨x, hx, hw1⟩ := weightStep_lookup_self hm
        have hnotin : st ∉ rest := (List.nodup_cons.1 hnd).1
        refine ⟨x, hx, ?_⟩
        rw [foldW_not_mem tds now rest st hnotin h1, hw1]
      · have hne : st ≠ a := by
          intro hh
          subst hh
          exact (List.nodup_cons.1 hnd).1 hst'
        obtain ⟨x, hx, hw'⟩ := ih (List.nodup_cons.1 hnd).2 st hst' h1
        rw [weightStep_lookup_ne hm hne] at hx
        exact ⟨x, hx, hw'⟩

/-- C10: whenever `update_weights` completes, every strategy with a trade
in the last 7 days has its weight moved by +0.1 (positive mean pnl) or
-0.1 (otherwise) and clamped into [0.3, 2.0], and every other strategy's
weight is unchanged. -/
theorem c10_weight_update (tds : List BTrade) (w : Weights) (now : ℚ)
    (w' : Weights) (h : update_weights tds w now = some w') (st : String) :
    (st ∉ recentStrategies tds now → lookupW w' st = lookupW w st) ∧
    (st ∈ recentStrategies tds now →
      ∃ x, lookupW w st = some x ∧
        lookupW w' st = some (adjustedW x (pnlsOf tds now st)) ∧
        3/10 ≤ adjustedW x (pnlsOf tds now st) ∧
        adjustedW x (pnlsOf tds now st) ≤ 2) := by
  constructor
  · intro hnm
    exact foldW_not_mem tds now (recentStrategies tds now) st hnm h
  · intro hm
    obtain ⟨x, hx, hw'⟩ :=
      foldW_mem tds now (recentStrategies tds now)
        (List.nodup_dedup _) st hm h
    exact ⟨x, hx, hw', (adjustedW_bounds x _).1, (adjustedW_bounds x _).2⟩

end Bot

namespace Bot

/-- Hypothesis-discharging instance of `c10_weight_update`: one recent
winning SMC trade moves the SMC weight from 1.0 to 1.1 (clamped range
respected) and leaves every other weight unchanged. -/
theorem c10_weight_update_witness :
    update_weights tds0 initWeights 200 =
      some [("SMC", 11/10), ("JAPAN", 1), ("SCALP", 1), ("PSND", 1),
            ("TREND", 1), ("MEAN", 1)] ∧
    "SMC" ∈ recentStrategies tds0 200 ∧
    ∃ x, lookupW initWeights "SMC" = some x ∧
      lookupW [("SMC", 11/10), ("JAPAN", 1), ("SCALP", 1), ("PSND", 1),
               ("TREND", 1), ("MEAN", 1)] "SMC"
        = some (adjustedW x (pnlsOf tds0 200 "SMC")) ∧
      3/10 ≤ adjustedW x (pnlsOf tds0 200 "SMC") ∧
      adjustedW x (pnlsOf tds0 200 "SMC") ≤ 2 := by
  have h : recentOf tds0 200 = tds0 := by
    simp [recentOf, tds0, List.filter]
    norm_num
  have hrec : recentStrategies tds0 200 = ["SMC"] := by
    unfold recentStrategies
    rw [h]
    decide
  have hpn : pnlsOf tds0 200 "SMC" = [5] := by
    unfold pnlsOf
    rw [h]
    decide
  have hl : lookupW initWeights "SMC" = some 1 := by simp [lookupW, initWeights]
  have hstep : weightStep tds0 200 initWeights "SMC" =
      some [("SMC", 11/10), ("JAPAN", 1), ("SCALP", 1), ("PSND", 1),
            ("TREND", 1), ("MEAN", 1)] := by
    rw [weightStep.eq_def, hl, hpn]
    simp [setW, initWeights, adjustedW, clampW]
    all_goals norm_num
  have hu : update_weights tds0 initWeights 200 =
      some [("SMC", 11/10), ("JAPAN", 1), ("SCALP", 1), ("PSND", 1),
            ("TREND", 1), ("MEAN", 1)] := by
    rw [update_weights, hrec, List.foldlM_cons, hstep]
    simp [List.foldlM_nil]
  have hmem : "SMC" ∈ recentStrategies tds0 200 := by
    rw [hrec]
    decide
  exact ⟨hu, hmem, (c10_weight_update tds0 initWeights 200 _ hu "SMC").2 hmem⟩

end Bot
